import Mathlib

/-!
# SafeTalk server — shallow embedding

A shallow embedding of `server.py` of the SafeTalk repository: the moderation
pipeline (`check_profanity_text`, `check_hf_toxicity`, `check_safe`), the
broadcast fanout (`broadcast_json`, `remove_client`) and one iteration of the
`handle_client` message loop, over an explicit server state
(`clients`, `users`, `unsafe_counts`, `rate_limit_counts`,
`last_message_times`, `banned_emails`).

External collaborators (Google token verification, the better_profanity
matcher, the Hugging Face toxicity endpoint, the OpenAI completion call and
the websocket send success) are modelled as oracles: the embedding is
parametric in their answers, exactly where the Python code calls out.

Python dictionaries are modelled as insertion-ordered association lists with
unique keys; Python sets of strings as duplicate-free lists.  Timestamps are
rationals (seconds); `(now - last).total_seconds() < 1` becomes
`now - last < 1`.
-/

/-- Opaque websocket connection handle. -/
abbrev WS := Nat

/-- The dictionary `{email, name, pic}` built by `verify_google_token`. -/
structure Identity where
  email : String
  name : String
  pic : String
deriving DecidableEq, Repr

/-- Outcome of the Hugging Face request in `check_hf_toxicity`, as seen by the
caller after the HTTP/JSON plumbing: the `HF_API_KEY` environment variable is
unset; the request or JSON decoding raised; or a toxic-label confidence score
was extracted from the response (the extraction loop leaves `toxic_score` at
`0.0` when no `toxic` label is present, which the `score 0` case subsumes). -/
inductive HFResult where
  | noKey
  | error
  | score (s : ℚ)
deriving DecidableEq, Repr

/-- Outbound frames (`json.dumps` payloads keyed by `type`). -/
inductive OutMsg where
  | kick (content : String)
  | system (content : String)
  | warning (content : String)
  | user_list (users : List Identity)
  | chat (content sender name pic : String) (timestamp : ℚ)
deriving DecidableEq, Repr

/-- Observable events of one handler step: a frame sent to one socket, a
socket closed by `ws.close()`, or a `log_flagged` append. -/
inductive Ev where
  | sent (dst : WS) (m : OutMsg)
  | closedConn (ws : WS)
  | flagged (email text reason : String)
deriving DecidableEq, Repr

/-- An inbound frame after `json.loads`: an `auth` frame with its token, a
`chat` frame with its content, some other JSON object, or a payload that
failed to parse (silently skipped by the loop). -/
inductive InMsg where
  | auth (token : String)
  | chat (content : String)
  | other
  | malformed
deriving DecidableEq, Repr

/-- The module-level mutable state of `server.py`.  The dictionaries
`users`, `unsafe_counts`, `rate_limit_counts`, `last_message_times` are
association lists keyed by connection; `closedSet` records connections on
which `ws.close()` was called (so `.open` is false). -/
structure ServerState where
  clients : List WS
  users : List (WS × Identity)
  unsafe_counts : List (WS × Nat)
  rate_limit_counts : List (WS × Nat)
  last_message_times : List (WS × ℚ)
  banned_emails : List String
  closedSet : List WS
deriving DecidableEq, Repr

/-- Result of one iteration of the `async for` body in `handle_client`:
the new state, the emitted events in order, and whether the iteration ended
in `return` (as opposed to `continue`/falling through). -/
structure StepResult where
  state : ServerState
  events : List Ev
  exits : Bool
deriving DecidableEq, Repr

/-- The external collaborators, as oracles.  `verify` is
`verify_google_token` (`none` = verification raised, or token missing);
`profane` is `profanity.contains_profanity`; `hf` is the outcome of the
Hugging Face call on a given text; `complete` is the OpenAI chat completion
(`Except.error e` = the call raised with message `e`); `sendOk c` tells
whether `await c.send(...)` succeeds (`false` = raises `ConnectionClosed`). -/
structure Oracles where
  verify : String → Option Identity
  profane : String → Bool
  hf : String → HFResult
  complete : String → Except String String
  sendOk : WS → Bool

/-! ## Dictionary / set helpers -/

/-- Python `d.get(k)` on an association list. -/
def lookup? {α : Type} : List (WS × α) → WS → Option α
  | [], _ => none
  | (k', v) :: rest, k => if k' = k then some v else lookup? rest k

/-- Python `d[k] = v`: replace in place when the key exists (Python dicts keep the
insertion position), append otherwise. -/
def setKey {α : Type} : List (WS × α) → WS → α → List (WS × α)
  | [], k, v => [(k, v)]
  | (k', v') :: rest, k, v =>
    if k' = k then (k, v) :: rest else (k', v') :: setKey rest k v

/-- Python `d.pop(k, None)`: drop the entry for `k`, if any. -/
def popKey {α : Type} : List (WS × α) → WS → List (WS × α)
  | [], _ => []
  | (k', v') :: rest, k => if k' = k then rest else (k', v') :: popKey rest k

/-- Models `banned_emails.add(email)` (set insertion, idempotent). -/
def addBan (l : List String) (e : String) : List String :=
  if l.contains e then l else l ++ [e]

/-- Models `await ws.close()`: record the socket as closed. -/
def closeConn (st : ServerState) (ws : WS) : ServerState :=
  { st with closedSet := if st.closedSet.contains ws then st.closedSet else st.closedSet ++ [ws] }

/-- Models `c.open`. -/
def isOpen (st : ServerState) (c : WS) : Bool :=
  ! st.closedSet.contains c

/-- The emails currently held by live sessions:
`[u["email"] for u in users.values()]`. -/
def usersEmails (st : ServerState) : List String :=
  st.users.map (fun p => p.2.email)

/-! ## Python string helpers

Python string operations modelled over the code-point list `String.data`
(Python `len` counts code points, as does `List.length` here).  Stripping and
lowering are modelled on ASCII, which covers the protocol strings involved. -/

/-- Characters removed by Python `str.strip()` (ASCII whitespace). -/
def isPySpace (c : Char) : Bool :=
  c == ' ' || c == '\t' || c == '\n' || c == '\x0d' || c == '\x0b' || c == '\x0c'

/-- Python `s.strip()`. -/
def pyStrip (s : String) : String :=
  String.mk (((s.data.dropWhile isPySpace).reverse.dropWhile isPySpace).reverse)

/-- Python `s.lower()` (ASCII). -/
def pyLower (s : String) : String :=
  String.mk (s.data.map Char.toLower)

/-- Python `s[n:]` (by code points). -/
def pyDrop (s : String) (n : Nat) : String :=
  String.mk (s.data.drop n)

/-- Python `len(s)` (code points). -/
def pyLen (s : String) : Nat :=
  s.data.length

/-- Python `msg.lower().startswith("/ai ")`. -/
def isAiCommand (msg : String) : Bool :=
  List.isPrefixOf (String.data "/ai ") (pyLower msg).data

/-! ## Moderation pipeline -/

/-- Models `check_profanity_text`: delegates to the lexical classifier. -/
def check_profanity_text (profane : String → Bool) (text : String) : Bool :=
  profane text

/-- Renders a score the way `f"({toxic_score:.2f})"` does for the scores the
endpoint returns: two decimal digits (rounding of a rational to the nearest
hundredth standing in for the float formatting). -/
def fmt2 (q : ℚ) : String :=
  let m : Nat := (round (q * 100) : ℤ).toNat
  toString (m / 100) ++ "." ++ (if m % 100 < 10 then "0" else "") ++ toString (m % 100)

/-- Models `check_hf_toxicity`, given the oracle outcome of the HTTP call.  Returns
`(is_safe, reason)` exactly as the Python function does. -/
def check_hf_toxicity (r : HFResult) : Bool × String :=
  match r with
  | .noKey => (true, "No moderation API key.")
  | .error => (true, "HF unavailable")
  | .score s =>
    if s > 1/2 then
      (false, "Toxicity flagged | Score: (" ++ fmt2 s ++ ") | Blocked by Hugging Face Toxicity")
    else
      (true, "OK")

/-- Models `check_safe`: lexical stage first, short-circuiting the remote stage. -/
def check_safe (o : Oracles) (text : String) : Bool × String :=
  if check_profanity_text o.profane text then (false, "Profanity detected")
  else check_hf_toxicity (o.hf text)

/-- Variant of `check_safe` instrumented with the number of toxicity-classifier
invocations the control flow performs (the remote stage runs exactly once on
the fall-through path and not at all on the short-circuit path). -/
def check_safe_calls (o : Oracles) (text : String) : (Bool × String) × Nat :=
  if check_profanity_text o.profane text then ((false, "Profanity detected"), 0)
  else (check_hf_toxicity (o.hf text), 1)

/-! ## Broadcast fanout and client removal

`broadcast_json` iterates over a snapshot `clients[:]`, sending the
once-serialized payload to every open connection other than `except_ws`; a
send that raises `ConnectionClosed` triggers `remove_client`, which itself
rebroadcasts a leave notice and a fresh presence snapshot.  The mutual
recursion is bounded in the source because each connection is removed at most
once; here a fuel argument, decremented on every recursive call, makes the
recursion structural (theorems supply ample fuel). -/

mutual

/-- Loop body of `broadcast_json` over the snapshot, threading the state. -/
def broadcast_go : Nat → (WS → Bool) → List WS → Option WS → OutMsg →
    ServerState → ServerState × List Ev
  | 0, _, _, _, _, st => (st, [])
  | _ + 1, _, [], _, _, st => (st, [])
  | f + 1, sendOk, c :: rest, exc, m, st =>
    if (some c != exc) && isOpen st c then
      if sendOk c then
        let p := broadcast_go f sendOk rest exc m st
        (p.1, .sent c m :: p.2)
      else
        let p1 := remove_client_go f sendOk c st
        let p2 := broadcast_go f sendOk rest exc m p1.1
        (p2.1, p1.2 ++ p2.2)
    else
      broadcast_go f sendOk rest exc m st

/-- Models `remove_client`: drop the connection from every table, then (when it had
a user) broadcast the leave notice, and always rebroadcast the presence
snapshot. -/
def remove_client_go : Nat → (WS → Bool) → WS → ServerState → ServerState × List Ev
  | 0, _, _, st => (st, [])
  | f + 1, sendOk, ws, st =>
    if st.clients.contains ws then
      let u := lookup? st.users ws
      let st1 : ServerState :=
        { st with
          users := popKey st.users ws
          clients := st.clients.erase ws
          unsafe_counts := popKey st.unsafe_counts ws
          rate_limit_counts := popKey st.rate_limit_counts ws
          last_message_times := popKey st.last_message_times ws }
      match u with
      | some ident =>
        let p1 := broadcast_go f sendOk st1.clients none
          (.system (ident.name ++ " left the chat.")) st1
        let p2 := broadcast_go f sendOk p1.1.clients none
          (.user_list (p1.1.users.map Prod.snd)) p1.1
        (p2.1, p1.2 ++ p2.2)
      | none =>
        let p2 := broadcast_go f sendOk st1.clients none
          (.user_list (st1.users.map Prod.snd)) st1
        (p2.1, p2.2)
    else
      (st, [])

end

/-- Models `broadcast_json(obj, except_ws)`: snapshot the client list and fan out. -/
def broadcast_json (fuel : Nat) (sendOk : WS → Bool) (st : ServerState)
    (exc : Option WS) (m : OutMsg) : ServerState × List Ev :=
  broadcast_go fuel sendOk st.clients exc m st

/-- Models `broadcast_user_list()`: presence snapshot from the current `users`. -/
def broadcast_user_list (fuel : Nat) (sendOk : WS → Bool) (st : ServerState) :
    ServerState × List Ev :=
  broadcast_json fuel sendOk st none (.user_list (st.users.map Prod.snd))

/-- Models `broadcast_system(content)`. -/
def broadcast_system (fuel : Nat) (sendOk : WS → Bool) (st : ServerState)
    (content : String) : ServerState × List Ev :=
  broadcast_json fuel sendOk st none (.system content)

/-- Models `remove_client(ws)` (the top-level entry used by the `finally` block). -/
def remove_client (fuel : Nat) (sendOk : WS → Bool) (ws : WS)
    (st : ServerState) : ServerState × List Ev :=
  remove_client_go fuel sendOk ws st

/-- State change performed by `remove_client(ws)`: the connection is dropped
from the client list and from every per-connection table (it is popped from
`users`, `unsafe_counts`, `rate_limit_counts` and `last_message_times`). -/
def removedState (st : ServerState) (f : WS) : ServerState :=
  { st with
    users := popKey st.users f
    clients := st.clients.erase f
    unsafe_counts := popKey st.unsafe_counts f
    rate_limit_counts := popKey st.rate_limit_counts f
    last_message_times := popKey st.last_message_times f }

/-! ## One iteration of the `handle_client` message loop -/

/-- The `data.get("type") == "auth"` branch of `handle_client`. -/
def authBranch (fuel : Nat) (o : Oracles) (ws : WS) (token : String)
    (st : ServerState) : StepResult :=
  match o.verify token with
  | none =>
    ⟨closeConn st ws, [.sent ws (.kick "Invalid Google Sign-In"), .closedConn ws], true⟩
  | some user =>
    -- `if not user or not user.get("email")`: a missing/empty email is falsy.
    if user.email = "" then
      ⟨closeConn st ws, [.sent ws (.kick "Invalid Google Sign-In"), .closedConn ws], true⟩
    else if st.banned_emails.contains user.email then
      ⟨closeConn st ws, [.sent ws (.kick "You are banned."), .closedConn ws], true⟩
    else if (usersEmails st).contains user.email then
      ⟨closeConn st ws, [.sent ws (.kick "⚠️ This account is already active."), .closedConn ws], true⟩
    else
      let st1 : ServerState :=
        { st with
          users := setKey st.users ws user
          unsafe_counts := setKey st.unsafe_counts ws 0
          rate_limit_counts := setKey st.rate_limit_counts ws 0 }
      let p1 := broadcast_system fuel o.sendOk st1 (user.name ++ " joined the chat!")
      let p2 := broadcast_user_list fuel o.sendOk p1.1
      ⟨p2.1, p1.2 ++ p2.2 ++ [.sent ws (.system "✅ Connected to SafeTalk")], false⟩

/-- The `/ai ` command branch: moderate the prompt, then either warn/count
(and possibly ban) or call the completion service and broadcast the reply. -/
def aiBranch (fuel : Nat) (o : Oracles) (ws : WS) (u : Identity)
    (msg : String) (now : ℚ) (st : ServerState) : StepResult :=
  let prompt := pyStrip (pyDrop msg 4)
  let v := check_safe o prompt
  if v.1 then
    let ai_reply := match o.complete prompt with
      | .ok r => pyStrip r
      | .error e => "Error: " ++ e
    let p := broadcast_json fuel o.sendOk st none
      (.chat ("🤖 " ++ ai_reply) "AI" "AI" "" now)
    ⟨p.1, p.2, false⟩
  else
    let n := (lookup? st.unsafe_counts ws).getD 0 + 1
    let st1 := { st with unsafe_counts := setKey st.unsafe_counts ws n }
    let evs := [Ev.flagged u.email prompt v.2,
                Ev.sent ws (.warning ("⚠️ AI prompt blocked: " ++ v.2))]
    if 3 ≤ n then
      -- note: this branch `continue`s after closing; it does not `return`.
      ⟨closeConn { st1 with banned_emails := addBan st1.banned_emails u.email } ws,
       evs ++ [.sent ws (.kick "Banned for unsafe inputs."), .closedConn ws], false⟩
    else
      ⟨st1, evs, false⟩

/-- The ordinary-chat branch: moderate, then broadcast or warn/count
(and possibly ban and `return`). -/
def normalBranch (fuel : Nat) (o : Oracles) (ws : WS) (u : Identity)
    (msg : String) (now : ℚ) (st : ServerState) : StepResult :=
  let v := check_safe o msg
  if v.1 then
    let p := broadcast_json fuel o.sendOk st none
      (.chat msg u.email u.name u.pic now)
    ⟨p.1, p.2, false⟩
  else
    let n := (lookup? st.unsafe_counts ws).getD 0 + 1
    let st1 := { st with unsafe_counts := setKey st.unsafe_counts ws n }
    let evs := [Ev.flagged u.email msg v.2,
                Ev.sent ws (.warning ("⚠️ Blocked: " ++ v.2))]
    if 3 ≤ n then
      ⟨closeConn { st1 with banned_emails := addBan st1.banned_emails u.email } ws,
       evs ++ [.sent ws (.kick "Banned for repeated unsafe messages."), .closedConn ws], true⟩
    else
      ⟨st1, evs, false⟩

/-- After the rate check admitted the message: dispatch on the `/ai ` pre
test. -/
def afterRate (fuel : Nat) (o : Oracles) (ws : WS) (u : Identity)
    (msg : String) (now : ℚ) (st : ServerState) : StepResult :=
  if isAiCommand msg then aiBranch fuel o ws u msg now st
  else normalBranch fuel o ws u msg now st

/-- The `data.get("type") == "chat"` branch for an authenticated connection:
strip, drop empties, bound the length, rate-check (warning and possible
spam ban), record the accepted-message time, then moderate and dispatch. -/
def chatBranch (fuel : Nat) (o : Oracles) (ws : WS) (u : Identity)
    (content : String) (now : ℚ) (st : ServerState) : StepResult :=
  let msg := pyStrip content
  if msg = "" then ⟨st, [], false⟩
  else if 200 < pyLen msg then
    ⟨st, [.sent ws (.warning "Message too long.")], false⟩
  else
    match lookup? st.last_message_times ws with
    | some last =>
      if now - last < 1 then
        let k := (lookup? st.rate_limit_counts ws).getD 0 + 1
        let st1 := { st with rate_limit_counts := setKey st.rate_limit_counts ws k }
        if 5 ≤ k then
          ⟨closeConn { st1 with banned_emails := addBan st1.banned_emails u.email } ws,
           [.sent ws (.warning "Too fast! Slow down."),
            .sent ws (.kick "Banned for spamming."), .closedConn ws], true⟩
        else
          ⟨st1, [.sent ws (.warning "Too fast! Slow down.")], false⟩
      else
        afterRate fuel o ws u msg now
          { st with last_message_times := setKey st.last_message_times ws now }
    | none =>
      afterRate fuel o ws u msg now
        { st with last_message_times := setKey st.last_message_times ws now }

/-- One iteration of the `async for raw in ws` body of `handle_client`,
given the parsed inbound frame and the wall clock `now`
(`datetime.utcnow()`). -/
def handle_client_step (fuel : Nat) (o : Oracles) (ws : WS) (m : InMsg)
    (now : ℚ) (st : ServerState) : StepResult :=
  match m with
  | .malformed => ⟨st, [], false⟩
  | .auth token => authBranch fuel o ws token st
  | .chat content =>
    match lookup? st.users ws with
    | none =>
      ⟨closeConn st ws, [.sent ws (.kick "Not authenticated."), .closedConn ws], true⟩
    | some u => chatBranch fuel o ws u content now st
  | .other =>
    match lookup? st.users ws with
    | none =>
      ⟨closeConn st ws, [.sent ws (.kick "Not authenticated."), .closedConn ws], true⟩
    | some _ => ⟨st, [], false⟩

/-! ## Concrete fixtures used by witnesses and counterexamples -/

def oC1 : Oracles :=
  ⟨fun _ => none, fun _ => true, fun _ => .noKey, fun _ => .error "", fun _ => true⟩

def oC6 : Oracles :=
  ⟨fun _ => none, fun _ => false, fun _ => .noKey, fun _ => .error "", fun _ => true⟩

def oC7 : Oracles :=
  ⟨fun _ => none, fun _ => false, fun _ => .score (3/4), fun _ => .error "", fun _ => true⟩

def idA : Identity := ⟨"alice@example.com", "Alice", "picA"⟩

def stC10 : ServerState := ⟨[1], [(1, idA)], [(1, 0)], [(1, 0)], [], [], []⟩

def oC10 : Oracles :=
  ⟨fun _ => none, fun _ => false, fun _ => .noKey, fun _ => .error "", fun _ => true⟩

def oC2 : Oracles :=
  ⟨fun _ => none, fun _ => true, fun _ => .noKey, fun _ => .error "", fun _ => true⟩

def stC2 : ServerState := ⟨[1], [(1, idA)], [(1, 2)], [(1, 0)], [], [], []⟩

def oC3 : Oracles :=
  ⟨fun _ => none, fun _ => false, fun _ => .noKey, fun _ => .error "", fun _ => true⟩

def stC3 : ServerState := ⟨[1], [(1, idA)], [(1, 0)], [(1, 4)], [(1, 0)], [], []⟩

def oC4 : Oracles :=
  ⟨fun t => if t = "tok" then some idA else none,
   fun _ => false, fun _ => .noKey, fun _ => .error "", fun _ => true⟩

def stC4 : ServerState := ⟨[1], [], [], [], [], ["alice@example.com"], []⟩

def oC5 : Oracles :=
  ⟨fun t => if t = "tok" then some idA else none,
   fun _ => false, fun _ => .noKey, fun _ => .error "", fun _ => true⟩

def stC5 : ServerState := ⟨[1, 2], [(1, idA)], [(1, 0)], [(1, 0)], [], [], []⟩

def idB : Identity := ⟨"bob@example.com", "Bob", "picB"⟩

def oC8 : Oracles :=
  ⟨fun t => if t = "tok2" then some idB else none,
   fun _ => false, fun _ => .noKey, fun _ => .error "", fun _ => true⟩

def stC8 : ServerState := ⟨[1], [(1, idA)], [(1, 2)], [(1, 4)], [], [], []⟩

def stC9 : ServerState := ⟨[1, 2], [(1, idA)], [(1, 0)], [(1, 0)], [], [], []⟩

def idC : Identity := ⟨"carol@example.com", "Carol", "picC"⟩

def stC9f : ServerState :=
  ⟨[1, 2, 3], [(1, idA), (2, idB), (3, idC)],
   [(1, 0), (2, 0), (3, 0)], [(1, 0), (2, 0), (3, 0)], [], [], []⟩

def okC9f : WS → Bool := fun c => ! (c == 2)

/-! ## Helper lemmas -/

theorem check_safe_calls_fst (o : Oracles) (t : String) :
    (check_safe_calls o t).1 = check_safe o t := by
  unfold check_safe_calls check_safe
  split <;> rfl

theorem lookup?_setKey_self {α : Type} (l : List (WS × α)) (k : WS) (v : α) :
    lookup? (setKey l k v) k = some v := by
  induction l with
  | nil => simp [setKey, lookup?]
  | cons p rest ih =>
    by_cases h : p.1 = k
    · simp [setKey, h, lookup?]
    · simp [setKey, h, lookup?, ih]

theorem addBan_contains_self (l : List String) (e : String) :
    (addBan l e).contains e = true := by
  unfold addBan
  split
  · assumption
  · simp

theorem addBan_contains_of (l : List String) (e e' : String)
    (h : l.contains e = true) : (addBan l e').contains e = true := by
  unfold addBan
  split
  · exact h
  · simp at h ⊢
    exact Or.inl h

theorem closeConn_contains_self (st : ServerState) (ws : WS) :
    (closeConn st ws).closedSet.contains ws = true := by
  unfold closeConn
  split
  · assumption
  · simp

/-! ## Claim theorems -/

/-- C1: for every text on which the lexical classifier reports a match,
`check_safe` returns `(False, "Profanity detected")`, performs zero
toxicity-classifier invocations, and its verdict is the same whatever the
toxicity classifier would have answered. -/
theorem C1_profanity_short_circuit (o : Oracles) (text : String)
    (h : o.profane text = true) :
    check_safe o text = (false, "Profanity detected") ∧
    (check_safe_calls o text).2 = 0 ∧
    ∀ hf2 : String → HFResult,
      check_safe { o with hf := hf2 } text = (false, "Profanity detected") := by
  refine ⟨?_, ?_, fun hf2 => ?_⟩ <;>
    simp [check_safe, check_safe_calls, check_profanity_text, h]

theorem C1_witness :
    oC1.profane "dummy bad word" = true ∧
    check_safe oC1 "dummy bad word" = (false, "Profanity detected") ∧
    (check_safe_calls oC1 "dummy bad word").2 = 0 :=
  ⟨rfl, (C1_profanity_short_circuit oC1 "dummy bad word" rfl).1,
    (C1_profanity_short_circuit oC1 "dummy bad word" rfl).2.1⟩

/-- C6: for every text free of lexical bad words, when the toxicity stage is
unavailable (no API key configured, or the request/decoding raised),
`check_safe` fails open and reports the text as safe. -/
theorem C6_fail_open (o : Oracles) (text : String)
    (hprof : o.profane text = false)
    (hun : o.hf text = .noKey ∨ o.hf text = .error) :
    (check_safe o text).1 = true := by
  rcases hun with h | h <;>
    simp [check_safe, check_profanity_text, hprof, h, check_hf_toxicity]

theorem C6_witness :
    oC6.profane "hello" = false ∧ oC6.hf "hello" = .noKey ∧
    (check_safe oC6 "hello").1 = true :=
  ⟨rfl, rfl, C6_fail_open oC6 "hello" rfl (Or.inl rfl)⟩

/-- C7 counterexample: with no lexical match and a reachable classifier
scoring 0.75, `check_safe` does flag the text, but the reason string is
`"Toxicity flagged | Score: (0.75) | Blocked by Hugging Face Toxicity"`,
not the spec's `"Toxicity flagged | score=0.75"`. -/
theorem C7_counterexample :
    (check_safe oC7 "borderline").1 = false ∧
    (check_safe oC7 "borderline").2 ≠ "Toxicity flagged | score=0.75" ∧
    (check_safe oC7 "borderline").2 =
      "Toxicity flagged | Score: (0.75) | Blocked by Hugging Face Toxicity" := by
  have hlt : (2⁻¹ : ℚ) < 3/4 := by norm_num
  have hround : round ((3/4 : ℚ) * 100) = 75 := by norm_num [round_eq]
  have hfmt : fmt2 (3/4) = "0.75" := by
    simp only [fmt2, hround]
    decide
  have hcs : check_safe oC7 "borderline" =
      (false, "Toxicity flagged | Score: (0.75) | Blocked by Hugging Face Toxicity") := by
    simp [check_safe, check_profanity_text, oC7, check_hf_toxicity, hlt, hfmt]
  refine ⟨by rw [hcs], by rw [hcs]; decide, by rw [hcs]⟩

/-- C7 (amended): for every text with no lexical match whose toxicity score
`s` is above 0.5, `check_safe` returns Unsafe with reason
`"Toxicity flagged | Score: (<s rendered to two decimals>) | Blocked by
Hugging Face Toxicity"` (citing the score); with `s` at most 0.5 it returns
Safe (reason `"OK"`). -/
theorem C7_toxicity_threshold (o : Oracles) (text : String) (s : ℚ)
    (hprof : o.profane text = false) (hhf : o.hf text = .score s) :
    (1/2 < s → check_safe o text =
      (false, "Toxicity flagged | Score: (" ++ fmt2 s ++ ") | Blocked by Hugging Face Toxicity")) ∧
    (s ≤ 1/2 → check_safe o text = (true, "OK")) := by
  constructor <;> intro hs
  · have hs' : (2⁻¹ : ℚ) < s := by rwa [one_div] at hs
    simp [check_safe, check_profanity_text, hprof, hhf, check_hf_toxicity, hs']
  · have hs' : ¬ ((2⁻¹ : ℚ) < s) := by
      rw [← one_div]
      exact not_lt.mpr hs
    simp [check_safe, check_profanity_text, hprof, hhf, check_hf_toxicity, hs']

theorem C7_witness :
    oC7.profane "borderline" = false ∧ oC7.hf "borderline" = .score (3/4) ∧
    (1/2 : ℚ) < 3/4 ∧
    check_safe oC7 "borderline" =
      (false, "Toxicity flagged | Score: (" ++ fmt2 (3/4) ++ ") | Blocked by Hugging Face Toxicity") :=
  ⟨rfl, rfl, by norm_num,
    (C7_toxicity_threshold oC7 "borderline" (3/4) rfl rfl).1 (by norm_num)⟩

/-- C10: an authenticated session's chat message whose (stripped) content
exceeds 200 code points is answered with exactly one `Warning` frame and
dropped: the state — counters, `last_message_times`, registry, ban set,
socket status — is returned untouched and the loop continues. -/
theorem C10_long_message (fuel : Nat) (o : Oracles) (ws : WS) (u : Identity)
    (content : String) (now : ℚ) (st : ServerState)
    (hu : lookup? st.users ws = some u)
    (hlen : 200 < pyLen (pyStrip content)) :
    handle_client_step fuel o ws (.chat content) now st =
      ⟨st, [.sent ws (.warning "Message too long.")], false⟩ := by
  have hne : ¬ (pyStrip content = "") := by
    intro h
    rw [h] at hlen
    exact absurd hlen (by decide)
  simp [handle_client_step, hu, chatBranch, hne, hlen]

set_option maxRecDepth 4000 in
theorem C10_witness :
    handle_client_step 5 oC10 1 (.chat (String.mk (List.replicate 201 'a'))) 0 stC10 =
      ⟨stC10, [.sent 1 (.warning "Message too long.")], false⟩ :=
  C10_long_message 5 oC10 1 idA (String.mk (List.replicate 201 'a')) 0 stC10
    (by decide) (by decide)

/-! ## Branch lemmas for the violation paths -/

theorem aiBranch_flagged (fuel : Nat) (o : Oracles) (ws : WS) (u : Identity)
    (msg : String) (now : ℚ) (st : ServerState) (n : Nat)
    (hn : lookup? st.unsafe_counts ws = some n)
    (hv : (check_safe o (pyStrip (pyDrop msg 4))).1 = false) :
    aiBranch fuel o ws u msg now st =
      if 3 ≤ n + 1 then
        ⟨closeConn { st with unsafe_counts := setKey st.unsafe_counts ws (n + 1),
                             banned_emails := addBan st.banned_emails u.email } ws,
         [Ev.flagged u.email (pyStrip (pyDrop msg 4)) (check_safe o (pyStrip (pyDrop msg 4))).2,
          Ev.sent ws (.warning ("⚠️ AI prompt blocked: " ++ (check_safe o (pyStrip (pyDrop msg 4))).2)),
          Ev.sent ws (.kick "Banned for unsafe inputs."), Ev.closedConn ws], false⟩
      else
        ⟨{ st with unsafe_counts := setKey st.unsafe_counts ws (n + 1) },
         [Ev.flagged u.email (pyStrip (pyDrop msg 4)) (check_safe o (pyStrip (pyDrop msg 4))).2,
          Ev.sent ws (.warning ("⚠️ AI prompt blocked: " ++ (check_safe o (pyStrip (pyDrop msg 4))).2))], false⟩ := by
  unfold aiBranch
  simp only [hv, Bool.false_eq_true, if_false, hn, Option.getD_some]
  split <;> rfl

theorem normalBranch_flagged (fuel : Nat) (o : Oracles) (ws : WS) (u : Identity)
    (msg : String) (now : ℚ) (st : ServerState) (n : Nat)
    (hn : lookup? st.unsafe_counts ws = some n)
    (hv : (check_safe o msg).1 = false) :
    normalBranch fuel o ws u msg now st =
      if 3 ≤ n + 1 then
        ⟨closeConn { st with unsafe_counts := setKey st.unsafe_counts ws (n + 1),
                             banned_emails := addBan st.banned_emails u.email } ws,
         [Ev.flagged u.email msg (check_safe o msg).2,
          Ev.sent ws (.warning ("⚠️ Blocked: " ++ (check_safe o msg).2)),
          Ev.sent ws (.kick "Banned for repeated unsafe messages."), Ev.closedConn ws], true⟩
      else
        ⟨{ st with unsafe_counts := setKey st.unsafe_counts ws (n + 1) },
         [Ev.flagged u.email msg (check_safe o msg).2,
          Ev.sent ws (.warning ("⚠️ Blocked: " ++ (check_safe o msg).2))], false⟩ := by
  unfold normalBranch
  simp only [hv, Bool.false_eq_true, if_false, hn, Option.getD_some]
  split <;> rfl

theorem chatBranch_rate_ok (fuel : Nat) (o : Oracles) (ws : WS) (u : Identity)
    (content : String) (now : ℚ) (st : ServerState)
    (hne : ¬ (pyStrip content = ""))
    (hlen : ¬ (200 < pyLen (pyStrip content)))
    (hrate : ∀ last, lookup? st.last_message_times ws = some last → ¬ (now - last < 1)) :
    chatBranch fuel o ws u content now st =
      afterRate fuel o ws u (pyStrip content) now
        { st with last_message_times := setKey st.last_message_times ws now } := by
  unfold chatBranch
  simp only [hne, if_false, hlen]
  cases hl : lookup? st.last_message_times ws with
  | none => rfl
  | some last => simp only [hrate last hl, if_false]

/-- C2: for an authenticated session with `unsafeCount = n`, a chat message
that passes the length and rate gates and fails moderation — whether an
ordinary message or an `/ai ` prompt — increments the count to `n + 1` and
warns; when `n + 1` reaches 3 the email is banned and the socket closed,
and when `n + 1 < 3` the ban set and socket status are untouched, the loop
continues, and the only frames sent are warnings to this session. -/
theorem C2_content_violation_threshold (fuel : Nat) (o : Oracles) (ws : WS)
    (u : Identity) (content : String) (now : ℚ) (st : ServerState) (n : Nat)
    (hu : lookup? st.users ws = some u)
    (hn : lookup? st.unsafe_counts ws = some n)
    (hne : ¬ (pyStrip content = ""))
    (hlen : ¬ (200 < pyLen (pyStrip content)))
    (hrate : ∀ last, lookup? st.last_message_times ws = some last → ¬ (now - last < 1))
    (hviol : (check_safe o (if isAiCommand (pyStrip content) then
        pyStrip (pyDrop (pyStrip content) 4) else pyStrip content)).1 = false) :
    lookup? (handle_client_step fuel o ws (.chat content) now st).state.unsafe_counts ws
        = some (n + 1) ∧
    (∃ w, Ev.sent ws (.warning w) ∈ (handle_client_step fuel o ws (.chat content) now st).events) ∧
    (3 ≤ n + 1 →
      (handle_client_step fuel o ws (.chat content) now st).state.banned_emails.contains u.email = true ∧
      (handle_client_step fuel o ws (.chat content) now st).state.closedSet.contains ws = true) ∧
    (n + 1 < 3 →
      (handle_client_step fuel o ws (.chat content) now st).state.closedSet = st.closedSet ∧
      (handle_client_step fuel o ws (.chat content) now st).state.banned_emails = st.banned_emails ∧
      (handle_client_step fuel o ws (.chat content) now st).exits = false ∧
      (∀ c mo, Ev.sent c mo ∈ (handle_client_step fuel o ws (.chat content) now st).events →
        c = ws ∧ ∃ w, mo = .warning w)) := by
  have hstep : handle_client_step fuel o ws (.chat content) now st =
      afterRate fuel o ws u (pyStrip content) now
        { st with last_message_times := setKey st.last_message_times ws now } := by
    simp only [handle_client_step, hu]
    exact chatBranch_rate_ok fuel o ws u content now st hne hlen hrate
  rw [hstep]
  by_cases hai : isAiCommand (pyStrip content)
  · rw [if_pos hai] at hviol
    have := aiBranch_flagged fuel o ws u (pyStrip content) now
      { st with last_message_times := setKey st.last_message_times ws now } n hn hviol
    rw [afterRate, if_pos hai, this]
    by_cases h3 : 3 ≤ n + 1
    · rw [if_pos h3]
      refine ⟨lookup?_setKey_self _ _ _, ⟨("⚠️ AI prompt blocked: " ++ (check_safe o (pyStrip (pyDrop (pyStrip content) 4))).2), by simp⟩, fun _ => ⟨addBan_contains_self _ _, closeConn_contains_self _ _⟩, fun hlt => absurd h3 (by omega)⟩
    · rw [if_neg h3]
      refine ⟨lookup?_setKey_self _ _ _, ⟨("⚠️ AI prompt blocked: " ++ (check_safe o (pyStrip (pyDrop (pyStrip content) 4))).2), by simp⟩, fun h => absurd h h3, fun _ => ⟨rfl, rfl, rfl, ?_⟩⟩
      intro c mo hmem
      simp only [List.mem_cons, List.mem_singleton] at hmem
      rcases hmem with h | h | h
      · cases h
      · cases h
        exact ⟨rfl, _, rfl⟩
      · cases h
  · rw [if_neg hai] at hviol
    have := normalBranch_flagged fuel o ws u (pyStrip content) now
      { st with last_message_times := setKey st.last_message_times ws now } n hn hviol
    rw [afterRate, if_neg hai, this]
    by_cases h3 : 3 ≤ n + 1
    · rw [if_pos h3]
      refine ⟨lookup?_setKey_self _ _ _, ⟨("⚠️ Blocked: " ++ (check_safe o (pyStrip content)).2), by simp⟩, fun _ => ⟨addBan_contains_self _ _, closeConn_contains_self _ _⟩, fun hlt => absurd h3 (by omega)⟩
    · rw [if_neg h3]
      refine ⟨lookup?_setKey_self _ _ _, ⟨("⚠️ Blocked: " ++ (check_safe o (pyStrip content)).2), by simp⟩, fun h => absurd h h3, fun _ => ⟨rfl, rfl, rfl, ?_⟩⟩
      intro c mo hmem
      simp only [List.mem_cons, List.mem_singleton] at hmem
      rcases hmem with h | h | h
      · cases h
      · cases h
        exact ⟨rfl, _, rfl⟩
      · cases h

theorem C2_witness :
    (handle_client_step 5 oC2 1 (.chat "bad message") 0 stC2).state.banned_emails.contains idA.email = true ∧
    (handle_client_step 5 oC2 1 (.chat "bad message") 0 stC2).state.closedSet.contains 1 = true ∧
    lookup? (handle_client_step 5 oC2 1 (.chat "bad message") 0 stC2).state.unsafe_counts 1 = some 3 :=
  have h := C2_content_violation_threshold 5 oC2 1 idA "bad message" 0 stC2 2
    (by decide) (by decide) (by decide) (by decide) (fun last hl => nomatch hl) (by decide)
  ⟨(h.2.2.1 (by decide)).1, (h.2.2.1 (by decide)).2, h.1⟩

/-! ## Broadcast characterization when every delivery succeeds -/

theorem broadcast_go_ok_on (sendOk : WS → Bool) :
    ∀ (snapshot : List WS) (fuel : Nat), snapshot.length < fuel →
      (∀ c, c ∈ snapshot → sendOk c = true) →
      ∀ (exc : Option WS) (m : OutMsg) (st : ServerState),
      broadcast_go fuel sendOk snapshot exc m st =
        (st, (snapshot.filter (fun c => (some c != exc) && isOpen st c)).map
          (fun c => Ev.sent c m)) := by
  intro snapshot
  induction snapshot with
  | nil =>
    intro fuel hfu _ exc m st
    match fuel, hfu with
    | f + 1, _ => simp [broadcast_go]
  | cons c rest ih =>
    intro fuel hfu hok exc m st
    match fuel, hfu with
    | f + 1, hfu =>
      have hr : rest.length < f := by
        simp only [List.length_cons] at hfu
        omega
      have hokr : ∀ c', c' ∈ rest → sendOk c' = true :=
        fun c' hc' => hok c' (List.mem_cons_of_mem _ hc')
      by_cases hc : ((some c != exc) && isOpen st c) = true
      · simp [broadcast_go, hc, hok c (List.mem_cons_self c rest), ih f hr hokr,
          List.filter_cons_of_pos]
      · simp [broadcast_go, hc, ih f hr hokr, List.filter_cons_of_neg, hc]

theorem broadcast_go_allOk (sendOk : WS → Bool) (hok : ∀ c, sendOk c = true) :
    ∀ (snapshot : List WS) (fuel : Nat), snapshot.length < fuel →
      ∀ (exc : Option WS) (m : OutMsg) (st : ServerState),
      broadcast_go fuel sendOk snapshot exc m st =
        (st, (snapshot.filter (fun c => (some c != exc) && isOpen st c)).map
          (fun c => Ev.sent c m)) :=
  fun snapshot fuel h exc m st =>
    broadcast_go_ok_on sendOk snapshot fuel h (fun c _ => hok c) exc m st

theorem broadcast_json_allOk (fuel : Nat) (sendOk : WS → Bool) (st : ServerState)
    (exc : Option WS) (m : OutMsg)
    (hok : ∀ c, sendOk c = true) (hfuel : st.clients.length < fuel) :
    broadcast_json fuel sendOk st exc m =
      (st, (st.clients.filter (fun c => (some c != exc) && isOpen st c)).map
        (fun c => Ev.sent c m)) :=
  broadcast_go_allOk sendOk hok st.clients fuel hfuel exc m st

theorem afterRate_preserves_last (fuel : Nat) (o : Oracles) (ws : WS)
    (u : Identity) (msg : String) (now : ℚ) (st : ServerState)
    (hok : ∀ c, o.sendOk c = true) (hfuel : st.clients.length < fuel) :
    (afterRate fuel o ws u msg now st).state.last_message_times = st.last_message_times := by
  have hb : ∀ (exc : Option WS) (m : OutMsg), (broadcast_json fuel o.sendOk st exc m).1 = st :=
    fun exc m => by rw [broadcast_json_allOk fuel o.sendOk st exc m hok hfuel]
  simp only [afterRate, aiBranch, normalBranch]
  split
  · split
    · simp [hb]
    · split <;> rfl
  · split
    · simp [hb]
    · split <;> rfl

theorem chatBranch_rate_violation (fuel : Nat) (o : Oracles) (ws : WS) (u : Identity)
    (content : String) (now : ℚ) (st : ServerState) (last : ℚ) (k : Nat)
    (hne : ¬ (pyStrip content = ""))
    (hlen : ¬ (200 < pyLen (pyStrip content)))
    (hl : lookup? st.last_message_times ws = some last)
    (hfast : now - last < 1)
    (hk : lookup? st.rate_limit_counts ws = some k) :
    chatBranch fuel o ws u content now st =
      if 5 ≤ k + 1 then
        ⟨closeConn { st with rate_limit_counts := setKey st.rate_limit_counts ws (k + 1),
                             banned_emails := addBan st.banned_emails u.email } ws,
         [Ev.sent ws (.warning "Too fast! Slow down."),
          Ev.sent ws (.kick "Banned for spamming."), Ev.closedConn ws], true⟩
      else
        ⟨{ st with rate_limit_counts := setKey st.rate_limit_counts ws (k + 1) },
         [Ev.sent ws (.warning "Too fast! Slow down.")], false⟩ := by
  unfold chatBranch
  simp only [hne, if_false, hlen, hl, hk, Option.getD_some]
  rw [if_pos hfast]

/-- C3: for an authenticated session with `rateViolationCount = k`, a chat
message (nonempty, within the length bound) arriving less than one second
after the last accepted message counts as a rate violation: the count becomes
`k + 1` and a "Too fast" warning is sent; when `k + 1` reaches 5 the email is
banned and the socket closed, and when `k + 1 < 5` the step changes nothing
but the rate counter, emits exactly the warning, and continues (message
dropped).  When the message is allowed (no recorded last time, or spacing at
least one second), `last_message_times` is updated to the arrival time. -/
theorem C3_rate_violation_threshold (fuel : Nat) (o : Oracles) (ws : WS)
    (u : Identity) (content : String) (now : ℚ) (st : ServerState) (k : Nat)
    (hu : lookup? st.users ws = some u)
    (hk : lookup? st.rate_limit_counts ws = some k)
    (hne : ¬ (pyStrip content = ""))
    (hlen : ¬ (200 < pyLen (pyStrip content)))
    (hok : ∀ c, o.sendOk c = true)
    (hfuel : st.clients.length < fuel) :
    (∀ last, lookup? st.last_message_times ws = some last → now - last < 1 →
      lookup? (handle_client_step fuel o ws (.chat content) now st).state.rate_limit_counts ws
          = some (k + 1) ∧
      Ev.sent ws (.warning "Too fast! Slow down.")
          ∈ (handle_client_step fuel o ws (.chat content) now st).events ∧
      (5 ≤ k + 1 →
        (handle_client_step fuel o ws (.chat content) now st).state.banned_emails.contains u.email = true ∧
        (handle_client_step fuel o ws (.chat content) now st).state.closedSet.contains ws = true ∧
        (handle_client_step fuel o ws (.chat content) now st).exits = true) ∧
      (k + 1 < 5 →
        handle_client_step fuel o ws (.chat content) now st =
          ⟨{ st with rate_limit_counts := setKey st.rate_limit_counts ws (k + 1) },
           [Ev.sent ws (.warning "Too fast! Slow down.")], false⟩)) ∧
    ((∀ last, lookup? st.last_message_times ws = some last → ¬ (now - last < 1)) →
      lookup? (handle_client_step fuel o ws (.chat content) now st).state.last_message_times ws
          = some now) := by
  constructor
  · intro last hl hfast
    have hstep : handle_client_step fuel o ws (.chat content) now st =
        chatBranch fuel o ws u content now st := by
      simp only [handle_client_step, hu]
    rw [hstep, chatBranch_rate_violation fuel o ws u content now st last k hne hlen hl hfast hk]
    by_cases h5 : 5 ≤ k + 1
    · rw [if_pos h5]
      exact ⟨lookup?_setKey_self _ _ _, by simp,
        fun _ => ⟨addBan_contains_self _ _, closeConn_contains_self _ _, rfl⟩,
        fun hlt => absurd h5 (by omega)⟩
    · rw [if_neg h5]
      exact ⟨lookup?_setKey_self _ _ _, by simp,
        fun h => absurd h h5, fun _ => rfl⟩
  · intro hrate
    have hstep : handle_client_step fuel o ws (.chat content) now st =
        afterRate fuel o ws u (pyStrip content) now
          { st with last_message_times := setKey st.last_message_times ws now } := by
      simp only [handle_client_step, hu]
      exact chatBranch_rate_ok fuel o ws u content now st hne hlen hrate
    rw [hstep, afterRate_preserves_last fuel o ws u (pyStrip content) now
      { st with last_message_times := setKey st.last_message_times ws now } hok hfuel]
    exact lookup?_setKey_self _ _ _

theorem C3_witness :
    lookup? (handle_client_step 5 oC3 1 (.chat "hello") 0 stC3).state.rate_limit_counts 1 = some 5 ∧
    (handle_client_step 5 oC3 1 (.chat "hello") 0 stC3).state.banned_emails.contains idA.email = true ∧
    (handle_client_step 5 oC3 1 (.chat "hello") 0 stC3).state.closedSet.contains 1 = true :=
  have h := (C3_rate_violation_threshold 5 oC3 1 idA "hello" 0 stC3 4
      rfl rfl (by decide) (by decide) (fun c => rfl) (by decide)).1 0 rfl (by norm_num)
  ⟨h.1, (h.2.2.1 (by decide)).1, (h.2.2.1 (by decide)).2.1⟩

/-! ## Preservation lemmas: broadcasts never add users and never touch bans -/

theorem popKey_subset {α : Type} (l : List (WS × α)) (k : WS) :
    popKey l k ⊆ l := by
  induction l with
  | nil => simp [popKey]
  | cons p rest ih =>
    by_cases h : p.1 = k
    · simp [popKey, h]
    · simp only [popKey, h, if_false]
      exact List.cons_subset_cons _ ih

theorem mem_setKey {α : Type} (l : List (WS × α)) (k : WS) (v : α) (p : WS × α)
    (h : p ∈ setKey l k v) : p ∈ l ∨ p = (k, v) := by
  induction l with
  | nil => simp [setKey] at h; simp [h]
  | cons q rest ih =>
    by_cases hq : q.1 = k
    · simp only [setKey, hq, if_true] at h
      rcases List.mem_cons.1 h with h | h
      · exact Or.inr h
      · exact Or.inl (List.mem_cons_of_mem _ h)
    · simp only [setKey, hq, if_false] at h
      rcases List.mem_cons.1 h with h | h
      · exact Or.inl (List.mem_cons.2 (Or.inl h))
      · rcases ih h with h | h
        · exact Or.inl (List.mem_cons_of_mem _ h)
        · exact Or.inr h

theorem broadcast_remove_preserve :
    ∀ (fuel : Nat) (sendOk : WS → Bool),
      (∀ (snapshot : List WS) (exc : Option WS) (m : OutMsg) (st : ServerState),
        ((broadcast_go fuel sendOk snapshot exc m st).1.users ⊆ st.users) ∧
        (broadcast_go fuel sendOk snapshot exc m st).1.banned_emails = st.banned_emails) ∧
      (∀ (ws : WS) (st : ServerState),
        ((remove_client_go fuel sendOk ws st).1.users ⊆ st.users) ∧
        (remove_client_go fuel sendOk ws st).1.banned_emails = st.banned_emails) := by
  intro fuel
  induction fuel with
  | zero =>
    intro sendOk
    exact ⟨fun _ _ _ _ => ⟨fun _ h => h, rfl⟩, fun _ _ => ⟨fun _ h => h, rfl⟩⟩
  | succ f ih =>
    intro sendOk
    obtain ⟨ihb, ihr⟩ := ih sendOk
    constructor
    · intro snapshot exc m st
      cases snapshot with
      | nil => exact ⟨fun _ h => h, rfl⟩
      | cons c rest =>
        simp only [broadcast_go]
        by_cases hc : ((some c != exc) && isOpen st c) = true
        · rw [if_pos hc]
          by_cases hs : sendOk c = true
          · rw [if_pos hs]
            exact ihb rest exc m st
          · rw [if_neg hs]
            refine ⟨fun p hp => (ihr c st).1 ((ihb rest exc m _).1 hp), ?_⟩
            rw [(ihb rest exc m _).2, (ihr c st).2]
        · rw [if_neg hc]
          exact ihb rest exc m st
    · intro ws st
      simp only [remove_client_go]
      by_cases hm : st.clients.contains ws = true
      · rw [if_pos hm]
        cases hu : lookup? st.users ws with
        | some ident =>
          simp only [hu]
          refine ⟨fun p hp => ?_, ?_⟩
          · exact popKey_subset st.users ws ((ihb _ none _ _).1 ((ihb _ none _ _).1 hp))
          · rw [(ihb _ none _ _).2, (ihb _ none _ _).2]
        | none =>
          simp only [hu]
          refine ⟨fun p hp => ?_, ?_⟩
          · exact popKey_subset st.users ws ((ihb _ none _ _).1 hp)
          · rw [(ihb _ none _ _).2]
      · rw [if_neg hm]
        exact ⟨fun _ h => h, rfl⟩

theorem usersEmails_mono {st st' : ServerState} (h : st'.users ⊆ st.users)
    {e : String} (he : e ∈ usersEmails st') : e ∈ usersEmails st := by
  simp only [usersEmails, List.mem_map] at he ⊢
  obtain ⟨p, hp, heq⟩ := he
  exact ⟨p, h hp, heq⟩

theorem afterRate_preserve_ban (fuel : Nat) (o : Oracles) (ws : WS) (u : Identity)
    (msg : String) (now : ℚ) (st : ServerState) (e : String)
    (hb : st.banned_emails.contains e = true)
    (hu : ¬ e ∈ usersEmails st) :
    (afterRate fuel o ws u msg now st).state.banned_emails.contains e = true ∧
    ¬ e ∈ usersEmails (afterRate fuel o ws u msg now st).state := by
  obtain ⟨ihb, _⟩ := broadcast_remove_preserve fuel o.sendOk
  have hbj : ∀ (exc : Option WS) (m : OutMsg),
      (broadcast_json fuel o.sendOk st exc m).1.banned_emails = st.banned_emails ∧
      (broadcast_json fuel o.sendOk st exc m).1.users ⊆ st.users :=
    fun exc m => ⟨(ihb st.clients exc m st).2, (ihb st.clients exc m st).1⟩
  simp only [afterRate, aiBranch, normalBranch]
  split
  · split
    · exact ⟨by rw [(hbj _ _).1]; exact hb,
        fun he => hu (usersEmails_mono (hbj _ _).2 he)⟩
    · split
      · exact ⟨addBan_contains_of _ _ _ hb, hu⟩
      · exact ⟨hb, hu⟩
  · split
    · exact ⟨by rw [(hbj _ _).1]; exact hb,
        fun he => hu (usersEmails_mono (hbj _ _).2 he)⟩
    · split
      · exact ⟨addBan_contains_of _ _ _ hb, hu⟩
      · exact ⟨hb, hu⟩

theorem chatBranch_preserve_ban (fuel : Nat) (o : Oracles) (ws : WS) (u : Identity)
    (content : String) (now : ℚ) (st : ServerState) (e : String)
    (hb : st.banned_emails.contains e = true)
    (hu : ¬ e ∈ usersEmails st) :
    (chatBranch fuel o ws u content now st).state.banned_emails.contains e = true ∧
    ¬ e ∈ usersEmails (chatBranch fuel o ws u content now st).state := by
  simp only [chatBranch]
  split
  · exact ⟨hb, hu⟩
  · split
    · exact ⟨hb, hu⟩
    · split
      · split
        · split
          · exact ⟨addBan_contains_of _ _ _ hb, hu⟩
          · exact ⟨hb, hu⟩
        · exact afterRate_preserve_ban fuel o ws u (pyStrip content) now
            { st with last_message_times := setKey st.last_message_times ws now } e hb hu
      · exact afterRate_preserve_ban fuel o ws u (pyStrip content) now
          { st with last_message_times := setKey st.last_message_times ws now } e hb hu

/-- C4: a connection presenting a credential that verifies to a banned email
is kicked with "You are banned." and closed, the user table untouched; and —
for any inbound frame whatsoever — an email that is banned and not attached
to any live session stays banned and never enters the user table, so a
banned email can never reach the Authenticated state. -/
theorem C4_banned_never_authenticated (fuel : Nat) (o : Oracles) (ws : WS)
    (now : ℚ) (st : ServerState) :
    (∀ (token : String) (u : Identity), o.verify token = some u →
      ¬ (u.email = "") → st.banned_emails.contains u.email = true →
      handle_client_step fuel o ws (.auth token) now st =
        ⟨closeConn st ws, [.sent ws (.kick "You are banned."), .closedConn ws], true⟩ ∧
      (closeConn st ws).users = st.users) ∧
    (∀ (m : InMsg) (e : String), st.banned_emails.contains e = true →
      ¬ e ∈ usersEmails st →
      (handle_client_step fuel o ws m now st).state.banned_emails.contains e = true ∧
      ¬ e ∈ usersEmails (handle_client_step fuel o ws m now st).state) := by
  constructor
  · intro token u hv he hb
    have hb2 : u.email ∈ st.banned_emails := by simpa using hb
    exact ⟨by simp [handle_client_step, authBranch, hv, he, hb2], rfl⟩
  · intro m e hb hu
    cases m with
    | malformed => exact ⟨hb, hu⟩
    | other =>
      simp only [handle_client_step]
      cases hw : lookup? st.users ws with
      | none => exact ⟨hb, hu⟩
      | some v => exact ⟨hb, hu⟩
    | chat content =>
      simp only [handle_client_step]
      cases hw : lookup? st.users ws with
      | none => exact ⟨hb, hu⟩
      | some v => exact chatBranch_preserve_ban fuel o ws v content now st e hb hu
    | auth token =>
      cases hv : o.verify token with
      | none =>
        simp only [handle_client_step, authBranch, hv]
        exact ⟨hb, hu⟩
      | some user =>
        simp only [handle_client_step, authBranch, hv]
        split
        · exact ⟨hb, hu⟩
        · split
          · exact ⟨hb, hu⟩
          · split
            · exact ⟨hb, hu⟩
            · rename_i hemailNe hnotBanned hnotActive
              simp only [broadcast_user_list, broadcast_system, broadcast_json]
              obtain ⟨ihb, _⟩ := broadcast_remove_preserve fuel o.sendOk
              constructor
              · rw [(ihb _ _ _ _).2, (ihb _ _ _ _).2]
                exact hb
              · intro he2
                have h2 := usersEmails_mono ((ihb _ _ _ _).1) he2
                have h1 := usersEmails_mono ((ihb _ _ _ _).1) h2
                simp only [usersEmails, List.mem_map] at h1
                obtain ⟨p, hp, heq⟩ := h1
                rcases mem_setKey _ _ _ _ hp with h | h
                · exact hu (List.mem_map.2 ⟨p, h, heq⟩)
                · subst h
                  simp only at heq
                  exact hnotBanned (by rw [heq]; exact hb)

theorem C4_witness :
    handle_client_step 5 oC4 1 (.auth "tok") 0 stC4 =
      ⟨closeConn stC4 1, [.sent 1 (.kick "You are banned."), .closedConn 1], true⟩ ∧
    lookup? (handle_client_step 5 oC4 1 (.auth "tok") 0 stC4).state.users 1 = none :=
  have h := (C4_banned_never_authenticated 5 oC4 1 0 stC4).1 "tok" idA
    (by decide) (by decide) (by decide)
  ⟨h.1, by rw [h.1]; decide⟩

/-- C5: when some live session already holds an email, an authentication
attempt presenting a valid credential for that same email is rejected with
the "already active" kick and the attempting socket is closed, while the
registry — user table, counters, client list — is untouched and no other
socket's open status changes (the existing session is not evicted). -/
theorem C5_duplicate_login_rejected (fuel : Nat) (o : Oracles) (ws : WS)
    (token : String) (now : ℚ) (st : ServerState) (u : Identity)
    (hv : o.verify token = some u)
    (he : ¬ (u.email = ""))
    (hnb : ¬ (st.banned_emails.contains u.email = true))
    (hact : (usersEmails st).contains u.email = true) :
    handle_client_step fuel o ws (.auth token) now st =
      ⟨closeConn st ws,
       [.sent ws (.kick "⚠️ This account is already active."), .closedConn ws], true⟩ ∧
    (closeConn st ws).users = st.users ∧
    (closeConn st ws).unsafe_counts = st.unsafe_counts ∧
    (closeConn st ws).rate_limit_counts = st.rate_limit_counts ∧
    (closeConn st ws).last_message_times = st.last_message_times ∧
    (closeConn st ws).clients = st.clients ∧
    (closeConn st ws).banned_emails = st.banned_emails ∧
    ∀ ws', ¬ (ws' = ws) →
      (closeConn st ws).closedSet.contains ws' = st.closedSet.contains ws' := by
  have hnb2 : ¬ u.email ∈ st.banned_emails := by
    intro h
    exact hnb (by simpa using h)
  have hact2 : u.email ∈ usersEmails st := by simpa using hact
  refine ⟨by simp [handle_client_step, authBranch, hv, he, hnb2, hact2],
    rfl, rfl, rfl, rfl, rfl, rfl, ?_⟩
  intro ws' hne'
  unfold closeConn
  split
  · rfl
  · simp [hne']

theorem C5_witness :
    handle_client_step 5 oC5 2 (.auth "tok") 0 stC5 =
      ⟨closeConn stC5 2,
       [.sent 2 (.kick "⚠️ This account is already active."), .closedConn 2], true⟩ ∧
    lookup? (handle_client_step 5 oC5 2 (.auth "tok") 0 stC5).state.users 1 = some idA ∧
    (handle_client_step 5 oC5 2 (.auth "tok") 0 stC5).state.closedSet.contains 1 = false :=
  have h := C5_duplicate_login_rejected 5 oC5 2 "tok" 0 stC5 idA
    (by decide) (by decide) (by decide) (by decide)
  ⟨h.1, by rw [h.1]; decide, by rw [h.1]; decide⟩

/-- C8, evaluated at the failing input: connection 1 is already authenticated
as Alice with `unsafeCount = 2` and `rateViolationCount = 4`; a second `auth`
frame carrying a valid credential for Bob (a different, unbanned, inactive
email) is accepted by the `auth` branch — which has no only-while-connecting
guard — replacing the fixed identity and resetting both counters to 0, and
the connection stays up. -/
theorem C8_reauth_resets_session :
    lookup? stC8.users 1 = some idA ∧
    lookup? stC8.unsafe_counts 1 = some 2 ∧
    lookup? stC8.rate_limit_counts 1 = some 4 ∧
    lookup? (handle_client_step 5 oC8 1 (.auth "tok2") 0 stC8).state.users 1 = some idB ∧
    ¬ (idB = idA) ∧
    lookup? (handle_client_step 5 oC8 1 (.auth "tok2") 0 stC8).state.unsafe_counts 1 = some 0 ∧
    lookup? (handle_client_step 5 oC8 1 (.auth "tok2") 0 stC8).state.rate_limit_counts 1 = some 0 ∧
    (handle_client_step 5 oC8 1 (.auth "tok2") 0 stC8).exits = false := by
  decide

/-- C9 counterexample: connection 2 is in the client list but has not
authenticated (no user entry), yet `broadcast_json` delivers the event to it
— broadcasts do not restrict fanout to authenticated registry entries. -/
theorem C9_counterexample :
    lookup? stC9.users 2 = none ∧
    Ev.sent 2 (.system "hi") ∈ (broadcast_json 5 (fun _ => true) stC9 none (.system "hi")).2 := by
  decide

theorem broadcast_go_single_failure (sendOk : WS → Bool) (st : ServerState) (f : WS)
    (exc : Option WS) (m : OutMsg)
    (hndc : st.clients.Nodup)
    (hin : f ∈ st.clients)
    (hopen : isOpen st f = true)
    (hexc : (some f != exc) = true)
    (hfail : ¬ sendOk f = true)
    (hok : ∀ c, ¬ c = f → sendOk c = true) :
    ∀ (snapshot : List WS), snapshot.Nodup → f ∈ snapshot →
      ∀ (fuel : Nat), snapshot.length + st.clients.length + 2 ≤ fuel →
      (broadcast_go fuel sendOk snapshot exc m st).1 = removedState st f ∧
      (∀ c, c ∈ (removedState st f).clients → isOpen st c = true →
        Ev.sent c (.user_list ((removedState st f).users.map Prod.snd))
          ∈ (broadcast_go fuel sendOk snapshot exc m st).2) ∧
      (∀ c, c ∈ snapshot → ¬ c = f → (some c != exc) = true → isOpen st c = true →
        Ev.sent c m ∈ (broadcast_go fuel sendOk snapshot exc m st).2) := by
  have hinb : st.clients.contains f = true := by simpa using hin
  have herase : ∀ c, c ∈ st.clients.erase f → sendOk c = true := by
    intro c hc
    exact hok c ((List.Nodup.mem_erase_iff hndc).mp hc).1
  have hlen : (st.clients.erase f).length = st.clients.length - 1 :=
    List.length_erase_of_mem hin
  intro snapshot
  induction snapshot with
  | nil =>
    intro _ hfm
    exact absurd hfm (List.not_mem_nil f)
  | cons c rest ih =>
    intro hnd hfm fuel hfuel
    obtain ⟨g, rfl⟩ : ∃ g, fuel = g + 1 := ⟨fuel - 1, by omega⟩
    simp only [List.length_cons] at hfuel
    by_cases hcf : c = f
    · subst hcf
      have hfr : ¬ c ∈ rest := (List.nodup_cons.mp hnd).1
      have hokrest : ∀ c', c' ∈ rest → sendOk c' = true := by
        intro c' hc'
        refine hok c' fun h => hfr ?_
        rw [← h]
        exact hc'
      have hguard : ((some c != exc) && isOpen st c) = true := by
        rw [hexc, hopen]
        rfl
      obtain ⟨g2, rfl⟩ : ∃ g2, g = g2 + 1 := ⟨g - 1, by omega⟩
      have h1 : (st.clients.erase c).length < g2 := by omega
      have h2 : rest.length < g2 + 1 := by omega
      have hba := broadcast_go_ok_on sendOk (st.clients.erase c) g2 h1 herase
      have hbr := broadcast_go_ok_on sendOk rest (g2 + 1) h2 hokrest
      simp only [broadcast_go]
      rw [if_pos hguard, if_neg hfail]
      simp only [remove_client_go]
      rw [if_pos hinb]
      cases hu : lookup? st.users c with
      | some ident =>
        simp only [hu, hba, hbr]
        refine ⟨rfl, ?_, ?_⟩
        · intro c' hmem hop
          refine List.mem_append.2 (Or.inl (List.mem_append.2 (Or.inr ?_)))
          refine List.mem_map.2 ⟨c', List.mem_filter.2 ⟨hmem, ?_⟩, rfl⟩
          show ((some c' != none) && isOpen st c') = true
          rw [hop]
          rfl
        · intro c' hc' hne' hex' hop'
          rcases List.mem_cons.1 hc' with h | h
          · exact absurd h hne'
          · refine List.mem_append.2 (Or.inr ?_)
            refine List.mem_map.2 ⟨c', List.mem_filter.2 ⟨h, ?_⟩, rfl⟩
            show ((some c' != exc) && isOpen st c') = true
            rw [hex', hop']
            rfl
      | none =>
        simp only [hu, hba, hbr]
        refine ⟨rfl, ?_, ?_⟩
        · intro c' hmem hop
          refine List.mem_append.2 (Or.inl ?_)
          refine List.mem_map.2 ⟨c', List.mem_filter.2 ⟨hmem, ?_⟩, rfl⟩
          show ((some c' != none) && isOpen st c') = true
          rw [hop]
          rfl
        · intro c' hc' hne' hex' hop'
          rcases List.mem_cons.1 hc' with h | h
          · exact absurd h hne'
          · refine List.mem_append.2 (Or.inr ?_)
            refine List.mem_map.2 ⟨c', List.mem_filter.2 ⟨h, ?_⟩, rfl⟩
            show ((some c' != exc) && isOpen st c') = true
            rw [hex', hop']
            rfl
    · have hfr : f ∈ rest := by
        rcases List.mem_cons.1 hfm with h | h
        · exact absurd h.symm hcf
        · exact h
      have IH := ih (List.nodup_cons.mp hnd).2 hfr g (by omega)
      by_cases hbc : ((some c != exc) && isOpen st c) = true
      · simp only [broadcast_go]
        rw [if_pos hbc, if_pos (hok c hcf)]
        refine ⟨IH.1, ?_, ?_⟩
        · intro c' hmem hop
          exact List.mem_cons_of_mem _ (IH.2.1 c' hmem hop)
        · intro c' hc' hne' hex' hop'
          rcases List.mem_cons.1 hc' with h | h
          · subst h
            exact List.mem_cons_self _ _
          · exact List.mem_cons_of_mem _ (IH.2.2 c' h hne' hex' hop')
      · simp only [broadcast_go]
        rw [if_neg hbc]
        refine ⟨IH.1, IH.2.1, ?_⟩
        intro c' hc' hne' hex' hop'
        rcases List.mem_cons.1 hc' with h | h
        · subst h
          exact absurd (by rw [hex', hop']; rfl) hbc
        · exact IH.2.2 c' h hne' hex' hop'

/-- C9 (amended): a broadcast delivers the once-serialized event to exactly
the open connections in the client list other than the excluded one —
authenticated or not; and, for every state with distinct client handles, a
delivery failure on one recipient removes that session from the registry
(client list, user table and every per-connection table) and triggers a
fresh presence rebroadcast to the surviving open connections, without
blocking delivery of the event to the remaining recipients. -/
theorem C9_broadcast_fanout :
    (∀ (fuel : Nat) (sendOk : WS → Bool) (st : ServerState) (exc : Option WS) (m : OutMsg),
      (∀ c, sendOk c = true) → st.clients.length < fuel →
      broadcast_json fuel sendOk st exc m =
        (st, (st.clients.filter (fun c => (some c != exc) && isOpen st c)).map
          (fun c => Ev.sent c m))) ∧
    (∀ (fuel : Nat) (sendOk : WS → Bool) (st : ServerState) (exc : Option WS)
        (m : OutMsg) (f : WS),
      st.clients.Nodup → f ∈ st.clients → isOpen st f = true →
      (some f != exc) = true → ¬ sendOk f = true →
      (∀ c, ¬ c = f → sendOk c = true) →
      2 * st.clients.length + 2 ≤ fuel →
      (broadcast_json fuel sendOk st exc m).1 = removedState st f ∧
      (∀ c, c ∈ (removedState st f).clients → isOpen st c = true →
        Ev.sent c (.user_list ((removedState st f).users.map Prod.snd))
          ∈ (broadcast_json fuel sendOk st exc m).2) ∧
      (∀ c, c ∈ st.clients → ¬ c = f → (some c != exc) = true → isOpen st c = true →
        Ev.sent c m ∈ (broadcast_json fuel sendOk st exc m).2)) :=
  ⟨fun fuel sendOk st exc m hok hf => broadcast_json_allOk fuel sendOk st exc m hok hf,
   fun fuel sendOk st exc m f hnd hin hopen hexc hfail hok hfuel =>
     broadcast_go_single_failure sendOk st f exc m hnd hin hopen hexc hfail hok
       st.clients hnd hin fuel (by omega)⟩

theorem C9_witness :
    (broadcast_json 3 (fun _ => true) stC9 none (.system "hi") =
      (stC9, [Ev.sent 1 (.system "hi"), Ev.sent 2 (.system "hi")])) ∧
    (broadcast_json 20 okC9f stC9f none (.system "hello")).1 = removedState stC9f 2 ∧
    Ev.sent 3 (.system "hello") ∈ (broadcast_json 20 okC9f stC9f none (.system "hello")).2 ∧
    Ev.sent 1 (.user_list ((removedState stC9f 2).users.map Prod.snd))
      ∈ (broadcast_json 20 okC9f stC9f none (.system "hello")).2 := by
  have hfall := (C9_broadcast_fanout).2 20 okC9f stC9f none (.system "hello") 2
    (by decide) (by decide) (by decide) (by decide) (by decide)
    (fun c hc => by simpa [okC9f] using hc) (by decide)
  refine ⟨?_, hfall.1, ?_, ?_⟩
  · have h := (C9_broadcast_fanout).1 3 (fun _ => true) stC9 none (.system "hi")
      (fun c => rfl) (by decide)
    rw [h]
    decide
  · exact hfall.2.2 3 (by decide) (by decide) (by decide) (by decide)
  · exact hfall.2.1 1 (by decide) (by decide)
